import Mathlib

/-!
A shallow embedding of the `mindstand/fsm` engine (Go).

The engine's own functions (`GetStateMap`, `TriggerState`, `Step`, the
queue-capable `Step` variant, `checkStateExitable`, `getTraverser`,
`performEntryAction`) are translated from the Go source.  The `Store` and
`Traverser` collaborators are interfaces in the source (`fsm.go`); here they
are given the concrete in-memory model described by the spec's data model:
an association list of actor records keyed by UUID, with field getters and
setters that always succeed.  Opaque Go `interface{}` payloads are modelled
as `Nat`; Go `time.Time` is modelled as `Nat` with `0` playing the role of
the zero time (`IsZero`), and the ambient `time.Now().UTC()` and the global
`InputTimeout` are passed as explicit `now` / `inputTimeout` parameters.
Go's unbounded recursion in `performEntryAction` is embedded with an
explicit fuel parameter; exhausting the fuel yields a distinguished error
that stands for divergence of the original recursion.
Because every Go mutation goes through the live store record, each function
returns the store as it stands at the return point together with an
optional error, rather than an `Except` that would drop partial mutations.
-/

/-- Opaque payload values (Go `interface{}`): modelled as `Nat`. -/
abbrev Payload := Nat

/-- Error values (Go `error`): modelled as their message strings. -/
abbrev Err := String

/-- Extracted parameters (Go `map[string]string`). -/
abbrev Params := List (String × String)

/-- An intent identity (the engine treats intents as opaque match targets). -/
structure Intent where
  name : String
deriving DecidableEq, Repr

/-- `StartState` from `fsm.go`: the reserved slug of the start state. -/
def StartState : String := "start"

/-- `QueueInfoKey`: the reserved data-bag key for the last trigger payload. -/
def QueueInfoKey : String := "queue_info"

/-- First-match association-list lookup, the model of Go map indexing and of
keyed record lookup in the in-memory store. -/
def alookup {α : Type} : List (String × α) → String → Option α
  | [], _ => none
  | (k, v) :: rest, key => if k = key then some v else alookup rest key

/-- The actor record.  `Traverser` is an interface in `fsm.go`; this concrete
record realises the spec's actor-record data model (platform, current state
slug, last-update timestamp, FIFO queue of deferred requests, key/value data
bag).  `lastUpdateTime = 0` models Go's zero `time.Time`. -/
structure Traverser where
  uuid : String
  platform : String
  currentState : String
  lastUpdateTime : Nat
  queue : List (String × Payload)
  data : List (String × Payload)
deriving DecidableEq, Repr

namespace Traverser

def setCurrentState (t : Traverser) (s : String) : Traverser :=
  { t with currentState := s }

def setPlatform (t : Traverser) (p : String) : Traverser :=
  { t with platform := p }

def setLastUpdateTime (t : Traverser) (n : Nat) : Traverser :=
  { t with lastUpdateTime := n }

/-- Modelled from the spec: `AddQueuedState` is an interface method whose
implementation is not in the engine source; the spec's §4.5 recommendation
(FIFO multi-slot) is modelled by appending to the queue. -/
def addQueuedState (t : Traverser) (state : String) (info : Payload) : Traverser :=
  { t with queue := t.queue ++ [(state, info)] }

/-- Modelled from the spec: the four-value `DequeueQueuedState` used by the
queue-capable `Step` variant is an interface method whose implementation is
not in the engine source; FIFO pop-front is modelled per §4.5.  Returns
(state, info, ok, updated record). -/
def dequeueQueuedState (t : Traverser) : String × Payload × Bool × Traverser :=
  match t.queue with
  | [] => ("", 0, false, t)
  | (st, info) :: rest => (st, info, true, { t with queue := rest })

/-- Modelled from the spec: the data-bag `Upsert` (insert or overwrite). -/
def upsert (t : Traverser) (key : String) (v : Payload) : Traverser :=
  if (alookup t.data key).isSome then
    { t with data := t.data.map (fun p => if p.1 = key then (key, v) else p) }
  else
    { t with data := t.data ++ [(key, v)] }

/-- Data-bag fetch with a default (test instrumentation helper). -/
def fetchD (t : Traverser) (key : String) (d : Payload) : Payload :=
  match alookup t.data key with
  | some v => v
  | none => d

end Traverser

/-- The in-memory store: actor records keyed by UUID.  `Store` is an
interface in `fsm.go`; this concrete model's fetch fails exactly on a
missing UUID and its create/setters always succeed. -/
structure Store where
  actors : List (String × Traverser)
deriving DecidableEq, Repr

namespace Store

def fetch (s : Store) (uuid : String) : Option Traverser :=
  alookup s.actors uuid

/-- Write an actor record back under its UUID (replace or append). -/
def save (s : Store) (uuid : String) (t : Traverser) : Store :=
  if (alookup s.actors uuid).isSome then
    ⟨s.actors.map (fun p => if p.1 = uuid then (uuid, t) else p)⟩
  else
    ⟨s.actors ++ [(uuid, t)]⟩

end Store

/-- A state of the machine, from `fsm.go`'s `State` struct.  The Go `Entry`
closure captures the emitter and the live traverser; here it takes the
traverser explicitly and returns the (possibly mutated) traverser together
with an optional error.  The emitter is an external side-effect channel not
observed by any engine-level property and is elided.  `Transition` returns
the next `State` object itself (Go returns `*State`, `nil` meaning stay),
which makes the type an inductive rather than a structure. -/
inductive State where
  | mk : (slug : String) → (isExitable : Bool) →
      (entry : Bool → Traverser → Traverser × Option Err) →
      (validIntents : List Intent) →
      (transition : Intent → Params → Option State) → State

namespace State

def Slug : State → String
  | .mk s _ _ _ _ => s

def IsExitable : State → Bool
  | .mk _ e _ _ _ => e

def Entry : State → Bool → Traverser → Traverser × Option Err
  | .mk _ _ f _ _ => f

def ValidIntents : State → List Intent
  | .mk _ _ _ v _ => v

def Transition : State → Intent → Params → Option State
  | .mk _ _ _ _ f => f

end State

/-- `StateMachine`: an ordered list of state definitions.  (Go's
`BuildState` factories exist to wire the emitter and traverser into the
`State` closures; with those collaborators explicit in `State.Entry`, a
factory is just its `State`.) -/
abbrev StateMachine := List State

/-- `StateMap`: the slug-keyed map, modelled as an association list. -/
abbrev StateMap := List (String × State)

/-- `InputTransformer`: pure input-to-intent classification. -/
abbrev InputTransformer := Payload → List Intent → Option Intent × Params

/-- Go map insert (`m[k] = v`): overwrite the existing entry or append. -/
def mapInsert (m : StateMap) (k : String) (v : State) : StateMap :=
  if (alookup m k).isSome then
    m.map (fun p => if p.1 = k then (k, v) else p)
  else
    m ++ [(k, v)]

/-- `GetStateMap` from the source: fold the machine's states into a map
keyed by slug, the later state silently overwriting on a duplicate slug. -/
def GetStateMap (stateMachine : StateMachine) : StateMap :=
  stateMachine.foldl (fun m s => mapInsert m s.Slug s) []

/-- `checkStateExitable` from the source: (isExitable, ok). -/
def checkStateExitable (state : String) (stateMap : StateMap) : Bool × Bool :=
  match alookup stateMap state with
  | none => (false, false)
  | some stateObj => (stateObj.IsExitable, true)

/-- The record `getTraverser` builds when the UUID is absent: create, set
current state to `StartState`, stamp the last-update time, set platform. -/
def freshTraverser (uuid platform : String) (now : Nat) : Traverser :=
  { uuid := uuid, platform := platform, currentState := StartState,
    lastUpdateTime := now, queue := [], data := [] }

/-- `getTraverser` from the source: fetch by UUID; on a fetch miss, create
the record, set its state to the start slug, stamp the time, record the
platform, and report it fresh.  Returns (record, isNew, store). -/
def getTraverser (platform uuid : String) (store : Store) (now : Nat) :
    Traverser × Bool × Store :=
  match store.fetch uuid with
  | some t => (t, false, store)
  | none =>
    let t0 := freshTraverser uuid platform now
    (t0, true, store.save uuid t0)

/-- `performEntryAction` from the source: run the state's entry behavior
with `isReentry = false`; re-read the recorded current state; if the entry
redirected (recorded slug differs from the entered state's slug), resolve
the newly named state from the map (missing slug is an error) and recurse.
The Go recursion is unbounded; `fuel` bounds this embedding, and running
out of fuel yields the distinguished error below, standing for divergence. -/
def performEntryAction : Nat → State → Traverser → StateMap →
    Traverser × Option Err
  | 0, _, traverser, _ => (traverser, some "model: entry recursion fuel exhausted")
  | fuel + 1, state, traverser, stateMap =>
    let er := state.Entry false traverser
    match er.2 with
    | some e => (er.1, some e)
    | none =>
      let t1 := er.1
      if t1.currentState = state.Slug then (t1, none)
      else
        match alookup stateMap t1.currentState with
        | none => (t1, some ("state (" ++ t1.currentState ++ ") does not exist"))
        | some shiftedState => performEntryAction fuel shiftedState t1 stateMap

/-- `TriggerState` from the source (canonical variant): resolve the actor via
`getTraverser`, check the current state's exitability (missing slug is an
error); if not exitable, enqueue (target, payload) and stop; if the
last-update time is set and `now` is not past `lastUpdate + inputTimeout`,
enqueue and stop; otherwise resolve the target from the map (missing slug is
an error), set the current state, stamp the time, stash the payload under
`QueueInfoKey`, and run entry resolution on the target state. -/
def TriggerState (platform uuid targetState : String) (input : Payload)
    (inputTransformer : InputTransformer) (store : Store) (stateMap : StateMap)
    (now inputTimeout fuel : Nat) : Store × Option Err :=
  let gt := getTraverser platform uuid store now
  let traverser := gt.1
  let store1 := gt.2.2
  let curState := traverser.currentState
  let ce := checkStateExitable curState stateMap
  if !ce.2 then (store1, some ("state (" ++ curState ++ ") does not exist"))
  else
    let applyMove : Store × Option Err :=
      match alookup stateMap targetState with
      | none => (store1, some ("state (" ++ targetState ++ ") does not exist"))
      | some stateObj =>
        let t1 := traverser.setCurrentState targetState
        let t2 := t1.setLastUpdateTime now
        let t3 := t2.upsert QueueInfoKey input
        let pr := performEntryAction fuel stateObj t3 stateMap
        (store1.save uuid pr.1,
          pr.2.map (fun e => "failed to perform entry action triggered state, " ++ e))
    if !ce.1 then
      (store1.save uuid (traverser.addQueuedState targetState input), none)
    else
      let lastUpdate := traverser.lastUpdateTime
      if lastUpdate ≠ 0 then
        if ¬ lastUpdate + inputTimeout < now then
          (store1.save uuid (traverser.addQueuedState targetState input), none)
        else applyMove
      else applyMove

/-- `Step` from the source (canonical variant): resolve or create the actor
via `getTraverser`; resolve the active state from the map (missing slug is
an error); if the actor is fresh, run entry resolution on it; classify the
input against the active state's valid intents; on a matched intent whose
transition yields a next state, set the slug, stamp the time, and run entry
resolution on it; otherwise re-invoke the active state's entry behavior
with `isReentry = true`. -/
def Step (platform uuid : String) (input : Payload)
    (inputTransformer : InputTransformer) (store : Store) (stateMap : StateMap)
    (now fuel : Nat) : Store × Option Err :=
  let gt := getTraverser platform uuid store now
  let traverser := gt.1
  let newTraverser := gt.2.1
  let store1 := gt.2.2
  let traverserCurState := traverser.currentState
  match alookup stateMap traverserCurState with
  | none => (store1, some ("state (" ++ traverserCurState ++ ") does not exist"))
  | some currentState =>
    let er :=
      if newTraverser then performEntryAction fuel currentState traverser stateMap
      else (traverser, none)
    match er.2 with
    | some e => (store1.save uuid er.1, some ("failed to perform action entry, " ++ e))
    | none =>
      let t1 := er.1
      let ir := inputTransformer input currentState.ValidIntents
      match ir.1 with
      | some intent =>
        match currentState.Transition intent ir.2 with
        | some newState =>
          let t2 := (t1.setCurrentState newState.Slug).setLastUpdateTime now
          let pr := performEntryAction fuel newState t2 stateMap
          (store1.save uuid pr.1,
            pr.2.map (fun e => "failed to perform action entry during transition, " ++ e))
        | none =>
          let pr := currentState.Entry true t1
          (store1.save uuid pr.1,
            pr.2.map (fun e => "failed to enter current state, " ++ e))
      | none =>
        let pr := currentState.Entry true t1
        (store1.save uuid pr.1,
          pr.2.map (fun e => "failed to enter current state, " ++ e))

/-- The queue-capable `Step` variant from the source: inline fetch-or-create
(note: no last-update stamp on creation), then, for a non-fresh actor, one
dequeue attempt — a dequeued (state, info) forces the current state and
stashes the info under `QueueInfoKey` before the active state is computed.
The variant indexes the state map without an ok-check, so a missing slug is
a nil-function call in Go; that panic is embedded as the error below.  Its
transition branch does not stamp the last-update time. -/
def StepQueued (platform uuid : String) (input : Payload)
    (inputTransformer : InputTransformer) (store : Store) (stateMap : StateMap)
    (fuel : Nat) : Store × Option Err :=
  let gt :=
    match store.fetch uuid with
    | some t => (t, false, store)
    | none =>
      let t0 : Traverser :=
        { uuid := uuid, platform := platform, currentState := StartState,
          lastUpdateTime := 0, queue := [], data := [] }
      (t0, true, store.save uuid t0)
  let newTraverser := gt.2.1
  let store1 := gt.2.2
  let traverser :=
    if newTraverser then gt.1
    else
      let dq := gt.1.dequeueQueuedState
      if dq.2.2.1 then (dq.2.2.2.setCurrentState dq.1).upsert QueueInfoKey dq.2.1
      else dq.2.2.2
  match alookup stateMap traverser.currentState with
  | none =>
    (store1.save uuid traverser,
      some ("panic: nil BuildState for (" ++ traverser.currentState ++ ")"))
  | some currentState =>
    let er :=
      if newTraverser then performEntryAction fuel currentState traverser stateMap
      else (traverser, none)
    match er.2 with
    | some e => (store1.save uuid er.1, some ("failed to perform action entry, " ++ e))
    | none =>
      let t1 := er.1
      let ir := inputTransformer input currentState.ValidIntents
      match ir.1 with
      | some intent =>
        match currentState.Transition intent ir.2 with
        | some newState =>
          let t2 := t1.setCurrentState newState.Slug
          let pr := performEntryAction fuel newState t2 stateMap
          (store1.save uuid pr.1,
            pr.2.map (fun e => "failed to perform action entry during transition, " ++ e))
        | none =>
          let pr := currentState.Entry true t1
          (store1.save uuid pr.1,
            pr.2.map (fun e => "failed to enter current state, " ++ e))
      | none =>
        let pr := currentState.Entry true t1
        (store1.save uuid pr.1,
          pr.2.map (fun e => "failed to enter current state, " ++ e))

/-! ### Association-list and store lemmas -/

theorem alookup_append_of_none {α : Type} (l1 l2 : List (String × α)) (k : String)
    (h : alookup l1 k = none) : alookup (l1 ++ l2) k = alookup l2 k := by
  induction l1 with
  | nil => rfl
  | cons p rest ih =>
    simp only [alookup] at h ⊢
    by_cases hk : p.1 = k
    · simp [hk] at h
    · simp only [List.cons_append, alookup, hk, if_neg hk] at h ⊢
      exact ih h

theorem alookup_append_of_some {α : Type} (l1 l2 : List (String × α)) (k : String)
    (v : α) (h : alookup l1 k = some v) : alookup (l1 ++ l2) k = some v := by
  induction l1 with
  | nil => simp [alookup] at h
  | cons p rest ih =>
    simp only [alookup] at h ⊢
    by_cases hk : p.1 = k
    · simpa [hk] using h
    · simp only [List.cons_append, alookup, if_neg hk] at h ⊢
      exact ih h

theorem alookup_map_replace {α : Type} (l : List (String × α)) (u : String) (t : α)
    (h : (alookup l u).isSome = true) :
    alookup (l.map (fun p => if p.1 = u then (u, t) else p)) u = some t := by
  induction l with
  | nil => simp [alookup] at h
  | cons p rest ih =>
    obtain ⟨k0, v0⟩ := p
    simp only [List.map_cons]
    by_cases hk : k0 = u
    · subst hk
      have hrep : (if (k0, v0).1 = k0 then (k0, t) else (k0, v0)) = (k0, t) := if_pos rfl
      rw [hrep, alookup, if_pos rfl]
    · simp only [alookup, if_neg hk] at h
      have hrep : (if (k0, v0).1 = u then (u, t) else (k0, v0)) = (k0, v0) := if_neg hk
      rw [hrep, alookup, if_neg hk]
      exact ih h

theorem fetch_save (s : Store) (u : String) (t : Traverser) :
    (s.save u t).fetch u = some t := by
  unfold Store.save Store.fetch
  by_cases h : (alookup s.actors u).isSome
  · simp only [h, if_pos rfl, if_true]
    exact alookup_map_replace s.actors u t h
  · simp only [h, if_false, Bool.false_eq_true]
    have hn : alookup s.actors u = none := by
      cases hl : alookup s.actors u with
      | none => rfl
      | some v => rw [hl] at h; simp at h
    rw [alookup_append_of_none _ _ _ hn]
    simp [alookup]

/-! ### Shared demo machine pieces (used by witnesses and counterexamples) -/

/-- An entry behavior that does nothing. -/
def noopEntry : Bool → Traverser → Traverser × Option Err := fun _ t => (t, none)

/-- A transition that always stays (Go `nil`). -/
def stayTransition : Intent → Params → Option State := fun _ _ => none

/-- A transformer that never classifies an intent. -/
def nilTransformer : InputTransformer := fun _ _ => (none, [])

/-- A demo start state: exitable, no-op entry, no intents. -/
def startStateDemo : State := .mk StartState true noopEntry [] stayTransition

/-- A demo one-state map containing only the start state. -/
def smDemo : StateMap := GetStateMap [startStateDemo]

/-! ### C8 -/

/-- C8: for an existing actor whose recorded current-state slug is absent
from the compiled state map, `Step` returns the "state (…) does not exist"
error to the caller (and leaves the store untouched) rather than crashing
or proceeding. -/
theorem C8_step_unknown_state
    (platform uuid : String) (input : Payload) (tr : InputTransformer)
    (store : Store) (stateMap : StateMap) (now fuel : Nat) (t : Traverser)
    (hfetch : store.fetch uuid = some t)
    (hmiss : alookup stateMap t.currentState = none) :
    Step platform uuid input tr store stateMap now fuel
      = (store, some ("state (" ++ t.currentState ++ ") does not exist")) := by
  unfold Step getTraverser
  rw [hfetch]
  simp [hmiss]

/-- C8 witness: a concrete actor recorded in a slug missing from the map. -/
theorem C8_step_unknown_state_witness :
    Step "p" "u" 3 nilTransformer
        ⟨[("u", { uuid := "u", platform := "p", currentState := "ghost",
                  lastUpdateTime := 1, queue := [], data := [] })]⟩
        smDemo 9 3
      = (⟨[("u", { uuid := "u", platform := "p", currentState := "ghost",
                   lastUpdateTime := 1, queue := [], data := [] })]⟩,
         some "state (ghost) does not exist") := by
  have h := C8_step_unknown_state "p" "u" 3 nilTransformer
    ⟨[("u", { uuid := "u", platform := "p", currentState := "ghost",
              lastUpdateTime := 1, queue := [], data := [] })]⟩
    smDemo 9 3
    { uuid := "u", platform := "p", currentState := "ghost",
      lastUpdateTime := 1, queue := [], data := [] }
    (by rfl) (by rfl)
  exact h

/-! ### C6 -/

/-- C6: for an existing actor, a `Step` whose input classifies to no intent
and a `Step` whose input classifies to an intent whose transition stays
behave identically: the engine mutates neither the current-state slug nor
the last-update timestamp, and only re-invokes the active state's entry
behavior with `isReentry = true` (the result being exactly that entry
call's outcome written back). -/
theorem C6_step_noop_cases
    (platform uuid : String) (inputA inputB : Payload) (tr : InputTransformer)
    (store : Store) (stateMap : StateMap) (now fuel : Nat)
    (t : Traverser) (cs : State) (i : Intent) (ps : Params)
    (hfetch : store.fetch uuid = some t)
    (hcs : alookup stateMap t.currentState = some cs) :
    ((tr inputA cs.ValidIntents).1 = none →
      Step platform uuid inputA tr store stateMap now fuel
        = (store.save uuid (cs.Entry true t).1,
           (cs.Entry true t).2.map (fun e => "failed to enter current state, " ++ e))) ∧
    (tr inputB cs.ValidIntents = (some i, ps) → cs.Transition i ps = none →
      Step platform uuid inputB tr store stateMap now fuel
        = (store.save uuid (cs.Entry true t).1,
           (cs.Entry true t).2.map (fun e => "failed to enter current state, " ++ e))) ∧
    ((tr inputA cs.ValidIntents).1 = none → tr inputB cs.ValidIntents = (some i, ps) →
      cs.Transition i ps = none →
      Step platform uuid inputA tr store stateMap now fuel
        = Step platform uuid inputB tr store stateMap now fuel) := by
  have hA : (tr inputA cs.ValidIntents).1 = none →
      Step platform uuid inputA tr store stateMap now fuel
        = (store.save uuid (cs.Entry true t).1,
           (cs.Entry true t).2.map (fun e => "failed to enter current state, " ++ e)) := by
    intro hno
    unfold Step getTraverser
    rw [hfetch]
    simp [hcs, hno]
  have hB : tr inputB cs.ValidIntents = (some i, ps) → cs.Transition i ps = none →
      Step platform uuid inputB tr store stateMap now fuel
        = (store.save uuid (cs.Entry true t).1,
           (cs.Entry true t).2.map (fun e => "failed to enter current state, " ++ e)) := by
    intro hi hstay
    unfold Step getTraverser
    rw [hfetch]
    simp [hcs, hi, hstay]
  refine ⟨hA, hB, ?_⟩
  intro hno hi hstay
  rw [hA hno, hB hi hstay]

/-- A demo intent used by witnesses. -/
def intentA : Intent := ⟨"A"⟩

/-- A demo transformer: input `1` classifies to `intentA`, all else to none. -/
def demoTransformer : InputTransformer := fun input _ =>
  if input = 1 then (some intentA, []) else (none, [])

/-- A demo state that accepts `intentA` but whose transition always stays. -/
def stayStateDemo : State := .mk "stay_here" true noopEntry [intentA] stayTransition

/-- A demo actor currently in `stayStateDemo`. -/
def tStayDemo : Traverser :=
  { uuid := "u", platform := "p", currentState := "stay_here",
    lastUpdateTime := 4, queue := [], data := [] }

/-- A demo store holding `tStayDemo`. -/
def storeStayDemo : Store := ⟨[("u", tStayDemo)]⟩

/-- A demo map holding the stay state. -/
def smStayDemo : StateMap := GetStateMap [stayStateDemo]

/-- C6 witness: input 0 classifies to no intent, input 1 classifies to
`intentA` whose transition stays; both `Step` calls leave the record as it
was and agree. -/
theorem C6_step_noop_cases_witness :
    Step "p" "u" 0 demoTransformer storeStayDemo smStayDemo 9 3
      = (storeStayDemo.save "u" tStayDemo, none) ∧
    Step "p" "u" 0 demoTransformer storeStayDemo smStayDemo 9 3
      = Step "p" "u" 1 demoTransformer storeStayDemo smStayDemo 9 3 := by
  have h := C6_step_noop_cases "p" "u" 0 1 demoTransformer storeStayDemo smStayDemo 9 3
    tStayDemo stayStateDemo intentA [] (by rfl) (by rfl)
  exact ⟨h.1 (by rfl), h.2.2 (by rfl) (by rfl) (by rfl)⟩

/-! ### C1 -/

/-- `fetch` after `save` under the same UUID always finds the record. -/
theorem fetch_isSome_save (s : Store) (u : String) (t : Traverser) :
    ((s.save u t).fetch u).isSome = true := by
  rw [fetch_save]; rfl

/-- C1 counterexample: on a store in which UUID "u" is absent, a concrete
`TriggerState` call returns no error at all (in particular no "not found"
error) and the resulting store now holds a record for "u": the shared
`getTraverser` auto-created it. -/
theorem C1_counterexample :
    (TriggerState "p" "u" "elsewhere" 7 nilTransformer ⟨[]⟩ smDemo 5 10 3).2 = none ∧
    ((TriggerState "p" "u" "elsewhere" 7 nilTransformer ⟨[]⟩ smDemo 5 10 3).1.fetch
        "u").isSome = true := by
  constructor
  · rfl
  · rfl

/-- C1 amended: for an absent actor UUID, `TriggerState` does not fail with
"not found"; it auto-creates the actor record through the shared
`getTraverser` (the record is present in the returned store on every
control path). -/
theorem C1_trigger_autocreates
    (platform uuid targetState : String) (input : Payload) (tr : InputTransformer)
    (store : Store) (stateMap : StateMap) (now inputTimeout fuel : Nat)
    (hfetch : store.fetch uuid = none) :
    ((TriggerState platform uuid targetState input tr store stateMap
        now inputTimeout fuel).1.fetch uuid).isSome = true := by
  unfold TriggerState getTraverser
  rw [hfetch]
  dsimp only
  split
  · exact fetch_isSome_save store uuid (freshTraverser uuid platform now)
  · split
    · exact fetch_isSome_save _ uuid _
    · split
      · split
        · exact fetch_isSome_save _ uuid _
        · split
          · exact fetch_isSome_save store uuid (freshTraverser uuid platform now)
          · exact fetch_isSome_save _ uuid _
      · split
        · exact fetch_isSome_save store uuid (freshTraverser uuid platform now)
        · exact fetch_isSome_save _ uuid _

/-- C1 amended witness: a concrete absent UUID is auto-created. -/
theorem C1_trigger_autocreates_witness :
    ((TriggerState "p" "u2" "elsewhere" 7 nilTransformer ⟨[]⟩ smDemo 20 3 2).1.fetch
        "u2").isSome = true :=
  C1_trigger_autocreates "p" "u2" "elsewhere" 7 nilTransformer ⟨[]⟩ smDemo 20 3 2 (by rfl)

/-! ### C10 -/

/-- C10: when a trigger is deferred — the current state is not exitable, or
the last-update timestamp is set and within the debounce window — then
`TriggerState` enqueues (target, payload) and returns success even though
the target slug is absent from the state map: target validity is only
checked on the immediate-application path. -/
theorem C10_defer_skips_target_check
    (platform uuid targetState : String) (input : Payload) (tr : InputTransformer)
    (store : Store) (stateMap : StateMap) (now inputTimeout fuel : Nat)
    (t : Traverser) (cs : State)
    (hfetch : store.fetch uuid = some t)
    (hcs : alookup stateMap t.currentState = some cs)
    (htgt : alookup stateMap targetState = none)
    (hdefer : cs.IsExitable = false ∨
      (t.lastUpdateTime ≠ 0 ∧ ¬ t.lastUpdateTime + inputTimeout < now)) :
    TriggerState platform uuid targetState input tr store stateMap now inputTimeout fuel
      = (store.save uuid (t.addQueuedState targetState input), none) := by
  unfold TriggerState getTraverser
  rw [hfetch]
  rcases hdefer with hx | hx
  · simp [checkStateExitable, hcs, hx]
  · by_cases hex : cs.IsExitable = true
    · simp [checkStateExitable, hcs, hex, hx.1, hx.2]
    · have hf : cs.IsExitable = false := by simpa using hex
      simp [checkStateExitable, hcs, hf]

/-- C10 witness: actor in an exitable state inside the debounce window,
target slug "nowhere" absent from the map; the trigger is enqueued with no
error. -/
theorem C10_defer_skips_target_check_witness :
    TriggerState "p" "u" "nowhere" 9 nilTransformer storeStayDemo smStayDemo 5 10 3
      = (storeStayDemo.save "u" (tStayDemo.addQueuedState "nowhere" 9), none) :=
  C10_defer_skips_target_check "p" "u" "nowhere" 9 nilTransformer storeStayDemo
    smStayDemo 5 10 3 tStayDemo stayStateDemo (by rfl) (by rfl) (by rfl)
    (Or.inr ⟨by decide, by decide⟩)

/-! ### C9 -/

/-- C9: for an existing actor in an exitable state whose last-update
timestamp was never set (the zero time), `TriggerState` skips the debounce
check and applies the move immediately — for every configured debounce
window: resolve the target, set the slug, stamp the time, stash the payload
under `QueueInfoKey`, run entry resolution on the target. -/
theorem C9_zero_time_applies
    (platform uuid targetState : String) (input : Payload) (tr : InputTransformer)
    (store : Store) (stateMap : StateMap) (now fuel : Nat)
    (t : Traverser) (cs ts : State)
    (hfetch : store.fetch uuid = some t)
    (hcs : alookup stateMap t.currentState = some cs)
    (hexit : cs.IsExitable = true)
    (hzero : t.lastUpdateTime = 0)
    (hts : alookup stateMap targetState = some ts) :
    ∀ inputTimeout : Nat,
      TriggerState platform uuid targetState input tr store stateMap now inputTimeout fuel
        = (store.save uuid
            (performEntryAction fuel ts
              (((t.setCurrentState targetState).setLastUpdateTime now).upsert
                QueueInfoKey input) stateMap).1,
           (performEntryAction fuel ts
              (((t.setCurrentState targetState).setLastUpdateTime now).upsert
                QueueInfoKey input) stateMap).2.map
             (fun e => "failed to perform entry action triggered state, " ++ e)) := by
  intro inputTimeout
  unfold TriggerState getTraverser
  rw [hfetch]
  simp [checkStateExitable, hcs, hexit, hzero, hts]

/-- A demo actor in the stay state whose timestamp was never set. -/
def tZeroDemo : Traverser :=
  { uuid := "u", platform := "p", currentState := "stay_here",
    lastUpdateTime := 0, queue := [], data := [] }

/-- A demo map with the stay state and the start state as trigger target. -/
def smStayStartDemo : StateMap := GetStateMap [stayStateDemo, startStateDemo]

/-- C9 witness: with a zero timestamp the move to "start" applies
immediately under a huge debounce window (`now = 0` is not past any
window's end, so a set timestamp would have deferred). -/
theorem C9_zero_time_applies_witness :
    TriggerState "p" "u" StartState 9 nilTransformer ⟨[("u", tZeroDemo)]⟩
        smStayStartDemo 0 1000 3
      = (Store.save ⟨[("u", tZeroDemo)]⟩ "u"
          (performEntryAction 3 startStateDemo
            (((tZeroDemo.setCurrentState StartState).setLastUpdateTime 0).upsert
              QueueInfoKey 9) smStayStartDemo).1,
         (performEntryAction 3 startStateDemo
            (((tZeroDemo.setCurrentState StartState).setLastUpdateTime 0).upsert
              QueueInfoKey 9) smStayStartDemo).2.map
           (fun e => "failed to perform entry action triggered state, " ++ e)) :=
  C9_zero_time_applies "p" "u" StartState 9 nilTransformer ⟨[("u", tZeroDemo)]⟩
    smStayStartDemo 0 3 tZeroDemo stayStateDemo startStateDemo
    (by rfl) (by rfl) (by rfl) (by rfl) (by rfl) 1000

/-! ### C4 -/

/-- C4: for an existing actor in an exitable state whose last-update
timestamp is set, `TriggerState` enqueues (target, payload) when `now` is
not past `lastUpdate + inputTimeout` (the debounce window); when it is
past, it applies the move immediately: an unknown target slug is an error,
and otherwise it sets the current state, stamps the last-update time,
stashes the payload under `QueueInfoKey`, and runs entry resolution on the
target state, in that order. -/
theorem C4_trigger_debounce
    (platform uuid targetState : String) (input : Payload) (tr : InputTransformer)
    (store : Store) (stateMap : StateMap) (now inputTimeout fuel : Nat)
    (t : Traverser) (cs : State)
    (hfetch : store.fetch uuid = some t)
    (hcs : alookup stateMap t.currentState = some cs)
    (hexit : cs.IsExitable = true)
    (hset : t.lastUpdateTime ≠ 0) :
    (¬ t.lastUpdateTime + inputTimeout < now →
      TriggerState platform uuid targetState input tr store stateMap now inputTimeout fuel
        = (store.save uuid (t.addQueuedState targetState input), none)) ∧
    (t.lastUpdateTime + inputTimeout < now →
      (alookup stateMap targetState = none →
        TriggerState platform uuid targetState input tr store stateMap now inputTimeout fuel
          = (store, some ("state (" ++ targetState ++ ") does not exist"))) ∧
      (∀ ts, alookup stateMap targetState = some ts →
        TriggerState platform uuid targetState input tr store stateMap now inputTimeout fuel
          = (store.save uuid
              (performEntryAction fuel ts
                (((t.setCurrentState targetState).setLastUpdateTime now).upsert
                  QueueInfoKey input) stateMap).1,
             (performEntryAction fuel ts
                (((t.setCurrentState targetState).setLastUpdateTime now).upsert
                  QueueInfoKey input) stateMap).2.map
               (fun e => "failed to perform entry action triggered state, " ++ e)))) := by
  constructor
  · intro hin
    unfold TriggerState getTraverser
    rw [hfetch]
    simp [checkStateExitable, hcs, hexit, hset, hin]
  · intro hout
    constructor
    · intro hmiss
      unfold TriggerState getTraverser
      rw [hfetch]
      simp [checkStateExitable, hcs, hexit, hset, hout, hmiss]
    · intro ts hts
      unfold TriggerState getTraverser
      rw [hfetch]
      simp [checkStateExitable, hcs, hexit, hset, hout, hts]

/-- C4 witness: inside the window (`now = 5 ≤ 4 + 10`) the request is
enqueued; outside the window (`now = 50 > 4 + 10`) the move to "start"
applies immediately. -/
theorem C4_trigger_debounce_witness :
    TriggerState "p" "u" StartState 9 nilTransformer ⟨[("u", tStayDemo)]⟩
        smStayStartDemo 5 10 3
      = (Store.save ⟨[("u", tStayDemo)]⟩ "u" (tStayDemo.addQueuedState StartState 9),
         none) ∧
    TriggerState "p" "u" StartState 9 nilTransformer ⟨[("u", tStayDemo)]⟩
        smStayStartDemo 50 10 3
      = (Store.save ⟨[("u", tStayDemo)]⟩ "u"
          (performEntryAction 3 startStateDemo
            (((tStayDemo.setCurrentState StartState).setLastUpdateTime 50).upsert
              QueueInfoKey 9) smStayStartDemo).1,
         (performEntryAction 3 startStateDemo
            (((tStayDemo.setCurrentState StartState).setLastUpdateTime 50).upsert
              QueueInfoKey 9) smStayStartDemo).2.map
           (fun e => "failed to perform entry action triggered state, " ++ e)) := by
  constructor
  · exact (C4_trigger_debounce "p" "u" StartState 9 nilTransformer ⟨[("u", tStayDemo)]⟩
      smStayStartDemo 5 10 3 tStayDemo stayStateDemo
      (by rfl) (by rfl) (by rfl) (by decide)).1 (by decide)
  · exact ((C4_trigger_debounce "p" "u" StartState 9 nilTransformer ⟨[("u", tStayDemo)]⟩
      smStayStartDemo 50 10 3 tStayDemo stayStateDemo
      (by rfl) (by rfl) (by rfl) (by decide)).2 (by decide)).2 startStateDemo (by rfl)

/-! ### Traverser projection lemmas -/

theorem Traverser.currentState_upsert (t : Traverser) (k : String) (v : Payload) :
    (t.upsert k v).currentState = t.currentState := by
  unfold Traverser.upsert
  split <;> rfl

theorem Traverser.lastUpdateTime_upsert (t : Traverser) (k : String) (v : Payload) :
    (t.upsert k v).lastUpdateTime = t.lastUpdateTime := by
  unfold Traverser.upsert
  split <;> rfl

theorem Traverser.fetchD_upsert_self (t : Traverser) (k : String) (v d : Payload) :
    (t.upsert k v).fetchD k d = v := by
  unfold Traverser.upsert Traverser.fetchD
  by_cases h : (alookup t.data k).isSome
  · simp only [h, if_true]
    rw [alookup_map_replace t.data k v h]
  · simp only [h, Bool.false_eq_true, if_false]
    have hn : alookup t.data k = none := by
      cases hl : alookup t.data k with
      | none => rfl
      | some w => rw [hl] at h; simp at h
    rw [alookup_append_of_none _ _ _ hn]
    simp [alookup]

/-! ### C5 -/

/-- C5: against a non-exitable current state, `TriggerState` enqueues the
(target, payload) request and returns success without touching the
current-state slug or the last-update timestamp; the next queue-capable
`Step` call for that actor dequeues the request and applies it — forcing
the current state to the dequeued target and stashing the payload under
`QueueInfoKey` — before computing the active state, which is then the
target state (here its re-entry hook runs, the input classifying to no
intent). -/
theorem C5_nonexitable_defer_then_step
    (platform uuid targetState : String) (payload input2 : Payload)
    (tr : InputTransformer) (store : Store) (stateMap : StateMap)
    (now inputTimeout fuel : Nat) (t : Traverser) (cs ts : State)
    (hfetch : store.fetch uuid = some t)
    (hcs : alookup stateMap t.currentState = some cs)
    (hexit : cs.IsExitable = false)
    (hq : t.queue = [])
    (hts : alookup stateMap targetState = some ts)
    (htr : (tr input2 ts.ValidIntents).1 = none) :
    TriggerState platform uuid targetState payload tr store stateMap now inputTimeout fuel
      = (store.save uuid (t.addQueuedState targetState payload), none) ∧
    (t.addQueuedState targetState payload).currentState = t.currentState ∧
    (t.addQueuedState targetState payload).lastUpdateTime = t.lastUpdateTime ∧
    ((t.setCurrentState targetState).upsert QueueInfoKey payload).currentState
      = targetState ∧
    StepQueued platform uuid input2 tr
        (store.save uuid (t.addQueuedState targetState payload)) stateMap fuel
      = ((store.save uuid (t.addQueuedState targetState payload)).save uuid
          (ts.Entry true ((t.setCurrentState targetState).upsert QueueInfoKey payload)).1,
         (ts.Entry true
            ((t.setCurrentState targetState).upsert QueueInfoKey payload)).2.map
           (fun e => "failed to enter current state, " ++ e)) := by
  have htrig : TriggerState platform uuid targetState payload tr store stateMap now
      inputTimeout fuel
      = (store.save uuid (t.addQueuedState targetState payload), none) := by
    unfold TriggerState getTraverser
    rw [hfetch]
    simp [checkStateExitable, hcs, hexit]
  have hcur : ((t.setCurrentState targetState).upsert QueueInfoKey payload).currentState
      = targetState := by
    rw [Traverser.currentState_upsert]; rfl
  have hf2 : (store.save uuid (t.addQueuedState targetState payload)).fetch uuid
      = some (t.addQueuedState targetState payload) := fetch_save _ _ _
  refine ⟨htrig, rfl, rfl, hcur, ?_⟩
  obtain ⟨u0, p0, c0, l0, q0, d0⟩ := t
  simp only [Traverser.queue] at hq
  subst hq
  unfold StepQueued
  rw [hf2]
  simp only [Traverser.addQueuedState, Traverser.dequeueQueuedState, List.nil_append,
    Traverser.setCurrentState, Bool.not_false, if_true]
  simp only [Bool.false_eq_true, if_false]
  have hsc : alookup stateMap
      (({ uuid := u0, platform := p0, currentState := targetState,
          lastUpdateTime := l0, queue := [], data := d0 } : Traverser).upsert
        QueueInfoKey payload).currentState = some ts := by
    rw [Traverser.currentState_upsert]
    exact hts
  rw [hsc]
  simp [htr]

/-- A demo non-exitable state. -/
def blockStateDemo : State := .mk "blocked" false noopEntry [] stayTransition

/-- A demo actor stuck in the non-exitable state. -/
def tBlockDemo : Traverser :=
  { uuid := "u", platform := "p", currentState := "blocked",
    lastUpdateTime := 4, queue := [], data := [] }

/-- A demo map with the non-exitable state and the start state. -/
def smBlockDemo : StateMap := GetStateMap [blockStateDemo, startStateDemo]

/-- C5 witness: the trigger to "start" is deferred while the actor sits in
the non-exitable state, and the next queue-capable `Step` dequeues and
applies it. -/
theorem C5_nonexitable_defer_then_step_witness :
    TriggerState "p" "u" StartState 9 nilTransformer ⟨[("u", tBlockDemo)]⟩
        smBlockDemo 5 10 3
      = (Store.save ⟨[("u", tBlockDemo)]⟩ "u"
          (tBlockDemo.addQueuedState StartState 9), none) ∧
    StepQueued "p" "u" 0 nilTransformer
        (Store.save ⟨[("u", tBlockDemo)]⟩ "u" (tBlockDemo.addQueuedState StartState 9))
        smBlockDemo 3
      = ((Store.save ⟨[("u", tBlockDemo)]⟩ "u"
            (tBlockDemo.addQueuedState StartState 9)).save "u"
          (startStateDemo.Entry true
            ((tBlockDemo.setCurrentState StartState).upsert QueueInfoKey 9)).1,
         (startStateDemo.Entry true
            ((tBlockDemo.setCurrentState StartState).upsert QueueInfoKey 9)).2.map
           (fun e => "failed to enter current state, " ++ e)) := by
  have h := C5_nonexitable_defer_then_step "p" "u" StartState 9 0 nilTransformer
    ⟨[("u", tBlockDemo)]⟩ smBlockDemo 5 10 3 tBlockDemo blockStateDemo startStateDemo
    (by rfl) (by rfl) (by rfl) (by rfl) (by rfl) (by rfl)
  exact ⟨h.1, h.2.2.2.2⟩

/-! ### C7 -/

/-- C7: for an absent actor UUID, the first `Step` call creates the record —
current state the reserved start slug, last-update time stamped, platform
recorded — and performs entry resolution on the start state exactly once
(one `performEntryAction` call, which itself follows any internal
redirects) before the input is processed (here the input classifies to no
intent, so the start state's re-entry hook then runs on the resolved
record). -/
theorem C7_fresh_step_creates_and_resolves
    (platform uuid : String) (input : Payload) (tr : InputTransformer)
    (store : Store) (stateMap : StateMap) (now fuel : Nat) (ss : State)
    (t1 : Traverser)
    (hfetch : store.fetch uuid = none)
    (hss : alookup stateMap StartState = some ss)
    (hres : performEntryAction fuel ss (freshTraverser uuid platform now) stateMap
      = (t1, none))
    (htr : (tr input ss.ValidIntents).1 = none) :
    (freshTraverser uuid platform now).currentState = StartState ∧
    (freshTraverser uuid platform now).platform = platform ∧
    (freshTraverser uuid platform now).lastUpdateTime = now ∧
    Step platform uuid input tr store stateMap now fuel
      = ((store.save uuid (freshTraverser uuid platform now)).save uuid
          (ss.Entry true t1).1,
         (ss.Entry true t1).2.map (fun e => "failed to enter current state, " ++ e)) := by
  refine ⟨rfl, rfl, rfl, ?_⟩
  unfold Step getTraverser
  rw [hfetch]
  simp only [freshTraverser] at hres
  simp [freshTraverser, hss, hres, htr]

/-- A demo start state whose entry redirects to "landing". -/
def startRedirectDemo : State :=
  .mk StartState true (fun _ t => (t.setCurrentState "landing", none)) [] stayTransition

/-- The demo landing state. -/
def landingDemo : State := .mk "landing" true noopEntry [] stayTransition

/-- The demo redirecting machine's map. -/
def smRedirectDemo : StateMap := GetStateMap [startRedirectDemo, landingDemo]

/-- C7 witness: a fresh actor's first `Step` lands on "landing" through the
start state's redirect. -/
theorem C7_fresh_step_creates_and_resolves_witness :
    (freshTraverser "u" "p" 7).currentState = StartState ∧
    (freshTraverser "u" "p" 7).platform = "p" ∧
    (freshTraverser "u" "p" 7).lastUpdateTime = 7 ∧
    Step "p" "u" 0 nilTransformer ⟨[]⟩ smRedirectDemo 7 3
      = ((Store.save ⟨[]⟩ "u" (freshTraverser "u" "p" 7)).save "u"
          (startRedirectDemo.Entry true
            ((freshTraverser "u" "p" 7).setCurrentState "landing")).1,
         (startRedirectDemo.Entry true
            ((freshTraverser "u" "p" 7).setCurrentState "landing")).2.map
           (fun e => "failed to enter current state, " ++ e)) :=
  C7_fresh_step_creates_and_resolves "p" "u" 0 nilTransformer ⟨[]⟩ smRedirectDemo 7 3
    startRedirectDemo ((freshTraverser "u" "p" 7).setCurrentState "landing")
    (by rfl) (by rfl) (by rfl) (by rfl)

/-! ### Map-insertion lemmas for GetStateMap -/

theorem alookup_eq_none_iff {α : Type} (l : List (String × α)) (k : String) :
    alookup l k = none ↔ k ∉ l.map Prod.fst := by
  induction l with
  | nil => simp [alookup]
  | cons p rest ih =>
    obtain ⟨k0, v0⟩ := p
    by_cases h : k0 = k
    · subst h
      simp [alookup]
    · simp [alookup, h, ih, Ne.symm h]

theorem alookup_cons {α : Type} (k0 : String) (v0 : α) (rest : List (String × α))
    (j : String) :
    alookup ((k0, v0) :: rest) j = if k0 = j then some v0 else alookup rest j := rfl

theorem alookup_map_replace_ne (m : StateMap) (k : String) (v : State) (j : String)
    (hj : j ≠ k) :
    alookup (m.map (fun p => if p.1 = k then (k, v) else p)) j = alookup m j := by
  induction m with
  | nil => rfl
  | cons p rest ih =>
    obtain ⟨k0, v0⟩ := p
    rw [List.map_cons]
    dsimp only
    by_cases hk : k0 = k
    · rw [if_pos hk, alookup_cons, alookup_cons]
      have h1 : ¬ (k = j) := Ne.symm hj
      have h2 : ¬ (k0 = j) := by rw [hk]; exact h1
      rw [if_neg h1, if_neg h2, ih]
    · rw [if_neg hk, alookup_cons, alookup_cons]
      by_cases hj0 : k0 = j
      · rw [if_pos hj0, if_pos hj0]
      · rw [if_neg hj0, if_neg hj0, ih]

theorem alookup_mapInsert (m : StateMap) (k : String) (v : State) (j : String) :
    alookup (mapInsert m k v) j = if j = k then some v else alookup m j := by
  unfold mapInsert
  by_cases h : (alookup m k).isSome = true
  · rw [if_pos h]
    by_cases hj : j = k
    · rw [hj, alookup_map_replace m k v h, if_pos rfl]
    · rw [alookup_map_replace_ne m k v j hj, if_neg hj]
  · rw [if_neg h]
    have hn : alookup m k = none := by
      cases hl : alookup m k with
      | none => rfl
      | some w => rw [hl] at h; simp at h
    by_cases hj : j = k
    · rw [hj, alookup_append_of_none _ _ _ hn, if_pos rfl]
      simp [alookup]
    · rw [if_neg hj]
      cases hm : alookup m j with
      | some w => exact alookup_append_of_some _ _ _ _ hm
      | none =>
        rw [alookup_append_of_none _ _ _ hm]
        simp [alookup, Ne.symm hj]

theorem keys_map_replace (m : StateMap) (k : String) (v : State) :
    (m.map (fun p => if p.1 = k then (k, v) else p)).map Prod.fst = m.map Prod.fst := by
  induction m with
  | nil => rfl
  | cons p rest ih =>
    obtain ⟨k0, v0⟩ := p
    by_cases h : k0 = k
    · subst h
      simp [ih]
    · simp [h, ih]

theorem keys_mapInsert_nodup (m : StateMap) (k : String) (v : State)
    (h : (m.map Prod.fst).Nodup) : ((mapInsert m k v).map Prod.fst).Nodup := by
  unfold mapInsert
  by_cases hp : (alookup m k).isSome = true
  · rw [if_pos hp, keys_map_replace]
    exact h
  · rw [if_neg hp]
    have hn : alookup m k = none := by
      cases hl : alookup m k with
      | none => rfl
      | some w => rw [hl] at hp; simp at hp
    have hk : k ∉ m.map Prod.fst := (alookup_eq_none_iff m k).mp hn
    simp [List.nodup_append, h, hk]

theorem foldl_mapInsert_props (sm : List State) (acc : StateMap)
    (hacc : (acc.map Prod.fst).Nodup) :
    (((sm.foldl (fun m s => mapInsert m s.Slug s) acc).map Prod.fst).Nodup) ∧
    (∀ slug, (alookup (sm.foldl (fun m s => mapInsert m s.Slug s) acc) slug).isSome
        = true ↔ ((alookup acc slug).isSome = true ∨ slug ∈ sm.map State.Slug)) := by
  induction sm generalizing acc with
  | nil => simpa using hacc
  | cons s rest ih =>
    have hacc' := keys_mapInsert_nodup acc s.Slug s hacc
    obtain ⟨hn, hl⟩ := ih (mapInsert acc s.Slug s) hacc'
    refine ⟨hn, ?_⟩
    intro slug
    rw [List.foldl_cons, hl slug, alookup_mapInsert]
    by_cases hs : slug = s.Slug
    · subst hs
      simp
    · simp [hs]
    
/-! ### C2 -/

/-- A demo exitable state with the duplicated slug. -/
def dupStateA : State := .mk "dup" true noopEntry [] stayTransition

/-- A demo non-exitable state with the same slug. -/
def dupStateB : State := .mk "dup" false noopEntry [] stayTransition

/-- C2 counterexample: compiling a machine whose two states both declare
slug "dup" does not fail with a duplicate-slug error — `GetStateMap`
returns a plain one-entry map in which the second state silently overwrote
the first. -/
theorem C2_counterexample :
    GetStateMap [dupStateA, dupStateB] = [("dup", dupStateB)] := rfl

/-- C2 amended: for every machine definition, the compiled state map has
exactly one entry per distinct declared slug — its keys are duplicate-free,
and a slug has an entry exactly when some state declared it.  Duplicate
slugs are not rejected: the later state silently overwrites the earlier
entry (no error is possible). -/
theorem C2_statemap_amended (sm : StateMachine) :
    ((GetStateMap sm).map Prod.fst).Nodup ∧
    (∀ slug, (alookup (GetStateMap sm) slug).isSome = true
      ↔ slug ∈ sm.map State.Slug) := by
  obtain ⟨hn, hl⟩ := foldl_mapInsert_props sm [] (by simp)
  refine ⟨hn, ?_⟩
  intro slug
  rw [GetStateMap, hl slug]
  simp [alookup]

/-! ### C3: redirect-chain machines

A family of machine definitions whose entry behaviors form a redirect
chain: state `i` counts its entry invocation in the actor's data bag and
redirects (by setting the recorded current state) to state `i+1`; the last
state only counts.  This is business-layer instrumentation — the engine
itself is untouched. -/

/-- The data-bag key under which chain entries count their invocations. -/
def entryCountKey : String := "entry_count"

/-- Entry behavior of a chain state: bump the invocation counter, then
redirect to `next` when present. -/
def chainEntry (next : Option String) : Bool → Traverser → Traverser × Option Err :=
  fun _ t =>
    let t1 := t.upsert entryCountKey (t.fetchD entryCountKey 0 + 1)
    match next with
    | some n => (t1.setCurrentState n, none)
    | none => (t1, none)

/-- A chain state with the given slug and optional redirect target. -/
def mkChainState (slug : String) (next : Option String) : State :=
  .mk slug true (chainEntry next) [] stayTransition

/-- The chain machine over a list of slugs. -/
def chainStates : List String → List State
  | [] => []
  | [s] => [mkChainState s none]
  | s :: s2 :: rest => mkChainState s (some s2) :: chainStates (s2 :: rest)

/-- `m` resolves every slug of the chain to its chain state. -/
def chainMapOK : List String → StateMap → Prop
  | [], _ => True
  | [s], m => alookup m s = some (mkChainState s none)
  | s :: s2 :: rest, m =>
      alookup m s = some (mkChainState s (some s2)) ∧ chainMapOK (s2 :: rest) m

theorem chainMapOK_head (x : String) (xs : List String) (m : StateMap)
    (h : chainMapOK (x :: xs) m) :
    alookup m x = some (mkChainState x xs.head?) := by
  cases xs with
  | nil => exact h
  | cons s2 rest2 => exact h.1

theorem chainMapOK_cons (l : List String) (m : StateMap) (k : String) (v : State)
    (h : chainMapOK l m) (hk : k ∉ l) : chainMapOK l ((k, v) :: m) := by
  induction l with
  | nil => trivial
  | cons s rest ih =>
    cases rest with
    | nil =>
      have hs : ¬ (k = s) := fun e => hk (by simp [e])
      show alookup ((k, v) :: m) s = some (mkChainState s none)
      rw [alookup_cons, if_neg hs]
      exact h
    | cons s2 rest2 =>
      obtain ⟨h1, h2⟩ := h
      have hs : ¬ (k = s) := fun e => hk (by simp [e])
      have hk2 : k ∉ s2 :: rest2 := fun hm => hk (List.mem_cons_of_mem _ hm)
      refine ⟨?_, ih h2 hk2⟩
      rw [alookup_cons, if_neg hs]
      exact h1

theorem chainStates_slugs (l : List String) : (chainStates l).map State.Slug = l := by
  induction l with
  | nil => rfl
  | cons s rest ih =>
    cases rest with
    | nil => rfl
    | cons s2 rest2 =>
      show State.Slug (mkChainState s (some s2)) :: (chainStates (s2 :: rest2)).map
          State.Slug = s :: s2 :: rest2
      rw [ih]
      rfl

theorem foldl_mapInsert_nodup (ss : List State) (acc : StateMap)
    (h1 : (ss.map State.Slug).Nodup)
    (h2 : ∀ s ∈ ss, alookup acc s.Slug = none) :
    ss.foldl (fun m s => mapInsert m s.Slug s) acc
      = acc ++ ss.map (fun s => (s.Slug, s)) := by
  induction ss generalizing acc with
  | nil => simp
  | cons s rest ih =>
    have hs : alookup acc s.Slug = none := h2 s (List.mem_cons_self s rest)
    have hins : mapInsert acc s.Slug s = acc ++ [(s.Slug, s)] := by
      unfold mapInsert
      rw [hs]
      simp
    have hnotin : s.Slug ∉ rest.map State.Slug := by
      rw [List.map_cons, List.nodup_cons] at h1
      exact h1.1
    have h1' : (rest.map State.Slug).Nodup := by
      rw [List.map_cons, List.nodup_cons] at h1
      exact h1.2
    have h2' : ∀ x ∈ rest, alookup (acc ++ [(s.Slug, s)]) x.Slug = none := by
      intro x hx
      have hxs : alookup acc x.Slug = none := h2 x (List.mem_cons_of_mem _ hx)
      rw [alookup_append_of_none _ _ _ hxs, alookup_cons]
      have hne : ¬ (s.Slug = x.Slug) :=
        fun e => hnotin (e ▸ List.mem_map_of_mem State.Slug hx)
      rw [if_neg hne]
      rfl
    rw [List.foldl_cons, hins, ih (acc ++ [(s.Slug, s)]) h1' h2']
    simp

theorem chainMapOK_pairs (l : List String) (h : l.Nodup) :
    chainMapOK l ((chainStates l).map (fun st => (st.Slug, st))) := by
  induction l with
  | nil => trivial
  | cons s rest ih =>
    cases rest with
    | nil =>
      show alookup [((mkChainState s none).Slug, mkChainState s none)] s
        = some (mkChainState s none)
      rw [alookup_cons, if_pos (show (mkChainState s none).Slug = s from rfl)]
    | cons s2 rest2 =>
      have hnotin : s ∉ s2 :: rest2 := (List.nodup_cons.mp h).1
      have hrest : (s2 :: rest2).Nodup := (List.nodup_cons.mp h).2
      refine ⟨?_, ?_⟩
      · show alookup (((mkChainState s (some s2)).Slug, mkChainState s (some s2)) ::
            (chainStates (s2 :: rest2)).map (fun st => (st.Slug, st))) s
          = some (mkChainState s (some s2))
        rw [alookup_cons, if_pos (show (mkChainState s (some s2)).Slug = s from rfl)]
      · exact chainMapOK_cons (s2 :: rest2) _ _ _ (ih hrest) hnotin

theorem Traverser.fetchD_setCurrentState (t : Traverser) (s k : String) (d : Payload) :
    (t.setCurrentState s).fetchD k d = t.fetchD k d := rfl

/-- Entry resolution along a redirect chain of `N = (s :: rest).length`
distinct states: with at least `N` fuel it returns no error (in particular
the Go recursion terminates after `N` nested calls), makes exactly `N`
entry invocations (witnessed by the instrumentation counter), and leaves
the recorded current state at the final, non-redirecting state's slug. -/
theorem chain_resolution (rest : List String) (s : String) (t : Traverser)
    (fuel : Nat) (m : StateMap)
    (hok : chainMapOK (s :: rest) m) (hnd : (s :: rest).Nodup)
    (ht : t.currentState = s) (hfuel : (s :: rest).length ≤ fuel) :
    (performEntryAction fuel (mkChainState s rest.head?) t m).2 = none ∧
    (performEntryAction fuel (mkChainState s rest.head?) t m).1.currentState
      = (s :: rest).getLast (by simp) ∧
    (performEntryAction fuel (mkChainState s rest.head?) t m).1.fetchD entryCountKey 0
      = t.fetchD entryCountKey 0 + (s :: rest).length := by
  induction rest generalizing s t fuel with
  | nil =>
    cases fuel with
    | zero => simp at hfuel
    | succ f =>
      have hcur : ((t.upsert entryCountKey (t.fetchD entryCountKey 0 + 1)).currentState)
          = s := by
        rw [Traverser.currentState_upsert]; exact ht
      have hstep : performEntryAction (f + 1) (mkChainState s none) t m
          = (t.upsert entryCountKey (t.fetchD entryCountKey 0 + 1), none) := by
        simp [performEntryAction, mkChainState, State.Entry, State.Slug, chainEntry, hcur]
      simp only [List.head?_nil]
      rw [hstep]
      refine ⟨rfl, ?_, ?_⟩
      · simpa using hcur
      · simp [Traverser.fetchD_upsert_self]
  | cons s2 rest2 ih =>
    cases fuel with
    | zero => simp at hfuel
    | succ f =>
      have hs2 : s ∉ s2 :: rest2 := (List.nodup_cons.mp hnd).1
      have hne : ¬ (s2 = s) := fun e => hs2 (by simp [e])
      have hhead : alookup m s2 = some (mkChainState s2 rest2.head?) :=
        chainMapOK_head s2 rest2 m hok.2
      have hstep : performEntryAction (f + 1) (mkChainState s (some s2)) t m
          = performEntryAction f (mkChainState s2 rest2.head?)
              ((t.upsert entryCountKey (t.fetchD entryCountKey 0 + 1)).setCurrentState s2)
              m := by
        simp [performEntryAction, mkChainState, State.Entry, State.Slug, chainEntry,
          Traverser.setCurrentState, hne, hhead]
      have ihres := ih s2
        ((t.upsert entryCountKey (t.fetchD entryCountKey 0 + 1)).setCurrentState s2)
        f hok.2 (List.nodup_cons.mp hnd).2 rfl (by simpa using hfuel)
      simp only [List.head?_cons]
      rw [hstep]
      refine ⟨ihres.1, ?_, ?_⟩
      · rw [ihres.2.1]
        exact (List.getLast_cons (by simp)).symm
      · rw [ihres.2.2, Traverser.fetchD_setCurrentState, Traverser.fetchD_upsert_self]
        simp only [List.length_cons]
        ring

/-! ### C3 -/

/-- C3: for every machine whose entry behaviors form a redirect chain of
`N = (s :: rest).length` distinct states starting from the entered state,
entry resolution over the compiled state map terminates (any fuel of at
least `N` suffices, i.e. the source recursion bottoms out after `N` nested
calls), performs exactly `N` entry invocations, and leaves the recorded
current-state slug at the final, non-redirecting state's slug. -/
theorem C3_entry_chain (s : String) (rest : List String) (t : Traverser) (fuel : Nat)
    (hnd : (s :: rest).Nodup) (ht : t.currentState = s)
    (hfuel : (s :: rest).length ≤ fuel) :
    (performEntryAction fuel (mkChainState s rest.head?) t
        (GetStateMap (chainStates (s :: rest)))).2 = none ∧
    (performEntryAction fuel (mkChainState s rest.head?) t
        (GetStateMap (chainStates (s :: rest)))).1.currentState
      = (s :: rest).getLast (by simp) ∧
    (performEntryAction fuel (mkChainState s rest.head?) t
        (GetStateMap (chainStates (s :: rest)))).1.fetchD entryCountKey 0
      = t.fetchD entryCountKey 0 + (s :: rest).length := by
  have hnodup : ((chainStates (s :: rest)).map State.Slug).Nodup := by
    rw [chainStates_slugs]
    exact hnd
  have hmap : GetStateMap (chainStates (s :: rest))
      = (chainStates (s :: rest)).map (fun st => (st.Slug, st)) := by
    unfold GetStateMap
    rw [foldl_mapInsert_nodup _ [] hnodup (fun _ _ => rfl)]
    simp
  have hok : chainMapOK (s :: rest) (GetStateMap (chainStates (s :: rest))) := by
    rw [hmap]
    exact chainMapOK_pairs _ hnd
  exact chain_resolution rest s t fuel _ hok hnd ht hfuel

/-- A demo actor positioned at the head of the three-state chain. -/
def tChainDemo : Traverser :=
  { uuid := "u", platform := "p", currentState := "a",
    lastUpdateTime := 1, queue := [], data := [] }

/-- C3 witness: the chain a → b → c resolves with exactly 3 entry
invocations, no error, ending in "c". -/
theorem C3_entry_chain_witness :
    (performEntryAction 3 (mkChainState "a" (["b", "c"]).head?) tChainDemo
        (GetStateMap (chainStates ["a", "b", "c"]))).2 = none ∧
    (performEntryAction 3 (mkChainState "a" (["b", "c"]).head?) tChainDemo
        (GetStateMap (chainStates ["a", "b", "c"]))).1.currentState
      = ["a", "b", "c"].getLast (by simp) ∧
    (performEntryAction 3 (mkChainState "a" (["b", "c"]).head?) tChainDemo
        (GetStateMap (chainStates ["a", "b", "c"]))).1.fetchD entryCountKey 0
      = tChainDemo.fetchD entryCountKey 0 + (["a", "b", "c"] : List String).length :=
  C3_entry_chain "a" ["b", "c"] tChainDemo 3 (by decide) (by rfl) (by decide)
